import Mathlib

/-!
Shallow embedding of `indenti.py` (the indent-tools / markup library):
the `StringBuilder` fragment buffer, the `IndentBase` indentation engine
(modelled on its concrete `IndentStringBuilder` instantiation, whose raw
sink records every emitted fragment in order), and the `XmlElement`
markup-tree type with its `append` / `apply` / rendering routines.

Python mutable objects are modelled by explicit state passing; Python
exceptions by `Except` whose error value carries both the message and the
object's state at raise time (Python exceptions leave the partially
mutated object behind); Python `int` by `Int`; Python `str` by `String`.
-/

namespace Indenti

/-- Python `s * n` for a string and an integer: `n` copies of `s`
concatenated, the empty string when `n ≤ 0`. -/
def strMul (s : String) (n : Int) : String :=
  String.join (List.replicate n.toNat s)

/-- `headMatches pat l` is true when `pat` is an initial segment of `l`
(the check `data.startswith(pattern)` performed at one position of
Python's `str.replace` scan). -/
def headMatches : List Char → List Char → Bool
  | [], _ => true
  | _ :: _, [] => false
  | p :: ps, c :: cs => p = c && headMatches ps cs

/-- The scan of Python `str.replace` on character lists, structurally
recursive on a fuel argument so that it reduces definitionally; every
recursive call drops at least one character, so any fuel at least the
length of the list gives the replacement's value.  Left-to-right scan,
non-overlapping replacement of every occurrence of a nonempty pattern. -/
def pyReplaceAux (pat rep : List Char) : Nat → List Char → List Char
  | _, [] => []
  | 0, l => l
  | Nat.succ fuel, c :: rest =>
    if headMatches pat (c :: rest) then
      match pat with
      | [] => c :: pyReplaceAux pat rep fuel rest
      | _ :: pt => rep ++ pyReplaceAux pat rep fuel (rest.drop pt.length)
    else
      c :: pyReplaceAux pat rep fuel rest

/-- Python `str.replace` on character lists for a nonempty pattern. -/
def pyReplaceChars (pat rep l : List Char) : List Char :=
  pyReplaceAux pat rep l.length l

/-- Python `s.replace(pat, rep)` (for the nonempty patterns used by the
escaping helpers). -/
def pyReplace (s pat rep : String) : String :=
  ⟨pyReplaceChars pat.data rep.data s.data⟩

/-- `xml.sax.saxutils.escape` with no extra entities: replaces `&` first,
then `<`, then `>`. -/
def xmlEscape (s : String) : String :=
  pyReplace (pyReplace (pyReplace s "&" "&amp;") "<" "&lt;") ">" "&gt;"

/-- The double-quote character. -/
def dquote : Char := Char.ofNat 34

/-- The single-quote character. -/
def squote : Char := Char.ofNat 39

/-- The escaping pass inside `xml.sax.saxutils.quoteattr`: the three base
replacements of `escape`, then the extra entities `\n → &#10;`,
`\r → &#13;`, `\t → &#9;` in insertion order. -/
def quoteattrEscape (s : String) : String :=
  pyReplace (pyReplace (pyReplace (xmlEscape s) "\n" "&#10;") "\r" "&#13;") "\t" "&#9;"

/-- `xml.sax.saxutils.quoteattr`: escapes the value, then wraps it in
double quotes; if the escaped value contains a double quote but no single
quote it is wrapped in single quotes instead; if it contains both, double
quotes are used and inner double quotes become `&quot;`. -/
def pyQuoteattr (s : String) : String :=
  let d := quoteattrEscape s
  if d.data.contains dquote then
    if d.data.contains squote then
      "\"" ++ pyReplace d "\"" "&quot;" ++ "\""
    else
      squote.toString ++ d ++ squote.toString
  else
    "\"" ++ d ++ "\""

/-- Python `str.splitlines` restricted to the line boundaries `\n`,
`\r\n` and `\r` (the only boundary characters this library ever emits):
splits at each boundary, never producing a trailing empty line. -/
def splitlinesAux : List Char → List Char → List String
  | [], acc => if acc.isEmpty then [] else [String.mk acc.reverse]
  | '\r' :: '\n' :: rest, acc => String.mk acc.reverse :: splitlinesAux rest []
  | '\n' :: rest, acc => String.mk acc.reverse :: splitlinesAux rest []
  | '\r' :: rest, acc => String.mk acc.reverse :: splitlinesAux rest []
  | c :: rest, acc => splitlinesAux rest (c :: acc)

/-- Python `s.splitlines()` for the boundaries `\n`, `\r\n`, `\r`. -/
def splitlines (s : String) : List String :=
  splitlinesAux s.data []

/-- `StringBuilder`: an ordered buffer of string fragments
(`self._strings`). -/
structure StringBuilder where
  strings : List String
  deriving DecidableEq, Repr

/-- A fresh `StringBuilder()` with no constructor argument. -/
def StringBuilder.mkEmpty : StringBuilder := ⟨[]⟩

/-- `StringBuilder.append`: adds the given string at the end. -/
def StringBuilder.append (sb : StringBuilder) (s : String) : StringBuilder :=
  ⟨sb.strings ++ [s]⟩

/-- `StringBuilder.extend`: the body is `map(self.append, strings)`.
Under Python 3 `map` builds a lazy iterator which is discarded without
ever being consumed, so no `append` call runs and the builder is left
unchanged. -/
def StringBuilder.extend (sb : StringBuilder) (strings : List String) : StringBuilder :=
  let _ := strings
  sb

/-- `StringBuilder.get_string`: concatenation of all fragments in order. -/
def StringBuilder.get_string (sb : StringBuilder) : String :=
  String.join sb.strings

/-- `StringBuilder.get_lines`: for each fragment in order, split it on
newlines and drop empty pieces (`filter(None, ...)`). -/
def StringBuilder.get_lines (sb : StringBuilder) : List String :=
  sb.strings.foldl (fun lines s => lines ++ ((s.split (· = '\n')).filter (· ≠ ""))) []

/-- The state of an `IndentStringBuilder`: the `IndentBase` fields
(`_il`, `_indent_str`, `_enabled`, `_isnewline`) together with the
`StringBuilder` fragment list that its `_write_raw` appends to.  The
fragment list doubles as a faithful record of the raw writes an
`IndentWriter` would hand to its output file, so the theorems about the
engine cover both concrete subclasses of `IndentBase`. -/
structure IndentStringBuilder where
  strings : List String
  il : Int
  indent_str : String
  enabled : Bool
  isnewline : Bool
  deriving DecidableEq, Repr

namespace IndentStringBuilder

/-- `IndentStringBuilder()`: `_il = 0`, `_indent_str` four spaces,
`_enabled = True`, `_isnewline = False`, empty fragment list. -/
def mkEmpty : IndentStringBuilder :=
  ⟨[], 0, "    ", true, false⟩

/-- `_write_raw`: appends the output fragment to the list of strings. -/
def write_raw (sb : IndentStringBuilder) (output : String) : IndentStringBuilder :=
  { sb with strings := sb.strings ++ [output] }

/-- `IndentBase.write`: if `_isnewline`, clear it and first emit
`_indent_str * _il` via `_write_raw`; then emit the output. -/
def write (sb : IndentStringBuilder) (output : String) : IndentStringBuilder :=
  if sb.isnewline then
    (({ sb with isnewline := false }).write_raw (strMul sb.indent_str sb.il)).write_raw output
  else
    sb.write_raw output

/-- `IndentBase.indent`: `_il += level`, no bound enforced. -/
def indent (sb : IndentStringBuilder) (level : Int := 1) : IndentStringBuilder :=
  { sb with il := sb.il + level }

/-- `IndentBase.unindent`: `_il -= level`, then clamp to 0 when the
result is negative. -/
def unindent (sb : IndentStringBuilder) (level : Int := 1) : IndentStringBuilder :=
  let il := sb.il - level
  { sb with il := if il < 0 then 0 else il }

/-- `IndentBase.set_indent_string`. -/
def set_indent_string (sb : IndentStringBuilder) (s : String) : IndentStringBuilder :=
  { sb with indent_str := s }

/-- `IndentBase.set_enabled`: stores the flag. -/
def set_enabled (sb : IndentStringBuilder) (e : Bool) : IndentStringBuilder :=
  { sb with enabled := e }

/-- `IndentBase.newline`: sets `_isnewline` and emits a bare `"\n"`. -/
def newline (sb : IndentStringBuilder) : IndentStringBuilder :=
  ({ sb with isnewline := true }).write_raw "\n"

/-- `IndentBase.println`: `write` then `newline`. -/
def println (sb : IndentStringBuilder) (output : String) : IndentStringBuilder :=
  (sb.write output).newline

/-- `IndentBase.print_lines`: `println` on each line of
`output.splitlines()`, in order. -/
def print_lines (sb : IndentStringBuilder) (output : String) : IndentStringBuilder :=
  (splitlines output).foldl (fun sb line => sb.println line) sb

/-- `IndentBase.__call__` with a string argument: same as `println`. -/
def functorCall (sb : IndentStringBuilder) (output : String) : IndentStringBuilder :=
  sb.println output

/-- `IndentBase.__enter__`: `indent()` with the default level 1. -/
def enter (sb : IndentStringBuilder) : IndentStringBuilder :=
  sb.indent 1

/-- `IndentBase.__exit__`: `unindent()` with the default level 1;
Python runs it on every exit path of a `with` block. -/
def exitScope (sb : IndentStringBuilder) : IndentStringBuilder :=
  sb.unindent 1

/-- `get_string` inherited from `StringBuilder`. -/
def get_string (sb : IndentStringBuilder) : String :=
  String.join sb.strings

end IndentStringBuilder

/-- A Python `with sb:` block around a body that may raise: `__enter__`
(`indent(1)`) runs first; the body threads the state and either returns
normally or raises, carrying the state at raise time; `__exit__`
(`unindent(1)`) runs on both paths, and an exception continues to
propagate afterwards. -/
def withIndent (sb : IndentStringBuilder)
    (body : IndentStringBuilder → Except (String × IndentStringBuilder) IndentStringBuilder) :
    Except (String × IndentStringBuilder) IndentStringBuilder :=
  match body sb.enter with
  | Except.ok sb' => Except.ok sb'.exitScope
  | Except.error (e, sb') => Except.error (e, sb'.exitScope)

/-- The engine state a possibly-raising computation leaves behind,
whether it returned normally or raised. -/
def stateAfter (r : Except (String × IndentStringBuilder) IndentStringBuilder) :
    IndentStringBuilder :=
  match r with
  | Except.ok sb => sb
  | Except.error (_, sb) => sb

/-- `HTML_VOID_TAGS`, in the order of the source literal (Python keeps
them in a `set`, whose iteration order is unspecified; the message
built from it is modelled with the literal's order). -/
def HTML_VOID_TAGS : List String :=
  ["area", "base", "br", "col", "hr", "img", "input",
   "link", "meta", "param", "command", "keygen", "source"]

/-- `HTML_NOINDENT_TAGS`. -/
def HTML_NOINDENT_TAGS : List String := ["textarea"]

/-- The Python exceptions the `XmlElement` methods can raise:
`ValueError` from the void-tag guard in `append`, and `TypeError` from
`+` applied to `None` in the `class` merge of `apply`. -/
inductive PyError where
  | valueError (msg : String)
  | typeError (msg : String)
  deriving DecidableEq, Repr

/-- The message of the `ValueError` raised by `XmlElement.append` on an
HTML void element: it interpolates the comma-joined void-tag set, not
the element's own tag. -/
def voidTagMsg : String :=
  "HTML void tags (" ++ String.intercalate ", " HTML_VOID_TAGS ++
    ") cannot have child elements."

/-- A node of the markup tree: an `XmlText` leaf or an `XmlElement`
with its `_name`, `_attrs` (insertion-ordered, values `None` allowed),
`_children`, `_doctype` and `_html` fields inlined. -/
inductive XmlNode where
  | text (s : String)
  | elem (name : String) (attrs : List (String × Option String))
      (children : List XmlNode) (doctype : Option String) (html : Bool)

/-- An `XmlElement` viewed as a record, for stating the mutation
operations (`append`, `apply`) that act on one element. -/
structure XmlElement where
  name : String
  attrs : List (String × Option String)
  children : List XmlNode
  doctype : Option String
  html : Bool

/-- The node an `XmlElement` denotes. -/
def XmlElement.toNode (el : XmlElement) : XmlNode :=
  XmlNode.elem el.name el.attrs el.children el.doctype el.html

/-- `XmlElement(name, attrs=None, html=False)` with no attrs. -/
def XmlElement.mkNew (name : String) (html : Bool) : XmlElement :=
  ⟨name, [], [], none, html⟩

/-- `OrderedDict` assignment `attrs[k] = v`: overwrite in place when the
key exists (its position is preserved), otherwise append at the end. -/
def setAttr (attrs : List (String × Option String)) (k : String) (v : Option String) :
    List (String × Option String) :=
  if attrs.any (fun p => p.1 = k) then
    attrs.map (fun p => if p.1 = k then (k, v) else p)
  else
    attrs ++ [(k, v)]

/-- `OrderedDict` lookup `attrs[k]` as an option. -/
def lookupAttr (attrs : List (String × Option String)) (k : String) :
    Option (Option String) :=
  (attrs.find? (fun p => p.1 = k)).map (fun p => p.2)

/-- `attrs.update(kwargs)`: assign each key/value pair in order, with no
special casing. -/
def updateAttrs (attrs : List (String × Option String))
    (kwargs : List (String × Option String)) : List (String × Option String) :=
  kwargs.foldl (fun a p => setAttr a p.1 p.2) attrs

/-- `XmlElement.append`: raises `ValueError` (leaving the element
untouched) when `_html` and the tag is a void tag; otherwise appends the
child and returns the element. -/
def XmlElement.append (el : XmlElement) (child : XmlNode) :
    Except (PyError × XmlElement) XmlElement :=
  if el.html ∧ HTML_VOID_TAGS.contains el.name then
    Except.error (PyError.valueError voidTagMsg, el)
  else
    Except.ok { el with children := el.children ++ [child] }

/-- A positional argument to `XmlElement.apply`, as dispatched by shape
in the source: a string (or `TextObject`), a list/tuple, a dict, or any
other value treated as a pre-built node. -/
inductive ApplyArg where
  | text (s : String)
  | group (args : List ApplyArg)
  | attrsMap (m : List (String × Option String))
  | node (n : XmlNode)

/-- The dict branch of `apply`: for each key/value in order, if the key
is `class`, the element is in HTML mode and `class` is already present,
run `attrs[class] += ' ' + value` — a `TypeError` when either side of
the `+` is `None` — otherwise plain assignment `attrs[key] = value`. -/
def mergeMapAttrs (el : XmlElement) : List (String × Option String) →
    Except (PyError × XmlElement) XmlElement
  | [] => Except.ok el
  | (k, v) :: rest =>
    if k = "class" ∧ el.html ∧ el.attrs.any (fun p => p.1 = "class") then
      match lookupAttr el.attrs "class", v with
      | some (some old), some newv =>
          mergeMapAttrs
            { el with attrs := setAttr el.attrs "class" (some (old ++ " " ++ newv)) } rest
      | _, _ =>
          Except.error (PyError.typeError "unsupported operand type(s) for +", el)
    else
      mergeMapAttrs { el with attrs := setAttr el.attrs k v } rest

mutual

/-- The positional-argument loop of `XmlElement.apply`: each argument is
processed in order; an exception propagates at once, carrying the
element state reached so far. -/
def applyArgs (el : XmlElement) : List ApplyArg → Except (PyError × XmlElement) XmlElement
  | [] => Except.ok el
  | arg :: rest =>
    match applyOne el arg with
    | Except.error e => Except.error e
    | Except.ok el' => applyArgs el' rest

/-- One iteration of the loop, dispatching on the argument's shape:
strings become `XmlText` children via `append`; lists/tuples are
recursively applied; dicts are merged into the attributes with the
`class` rule; anything else is appended as a child. -/
def applyOne (el : XmlElement) : ApplyArg → Except (PyError × XmlElement) XmlElement
  | ApplyArg.text s => el.append (XmlNode.text s)
  | ApplyArg.group g => applyArgs el g
  | ApplyArg.attrsMap m => mergeMapAttrs el m
  | ApplyArg.node n => el.append n

end

/-- `XmlElement.apply(*args, **kwargs)`: first `attrs.update(kwargs)`
(plain update, no `class` special case), then the positional-argument
loop. -/
def XmlElement.apply (el : XmlElement) (kwargs : List (String × Option String))
    (args : List ApplyArg) : Except (PyError × XmlElement) XmlElement :=
  applyArgs { el with attrs := updateAttrs el.attrs kwargs } args

/-- `XmlElement._get_attrs_str`: build the list of attribute
declarations in insertion order — `key=quoteattr(value)` for a non-null
value, the bare escaped key otherwise — and join with single spaces. -/
def XmlElement.getAttrsStr (attrs : List (String × Option String)) : String :=
  let attr_decls := attrs.foldl
    (fun acc p =>
      match p.2 with
      | some v => acc ++ [xmlEscape p.1 ++ "=" ++ pyQuoteattr v]
      | none => acc ++ [xmlEscape p.1]) []
  String.intercalate " " attr_decls

mutual

/-- `XmlText.__str__` / `XmlElement.__str__`: a text node renders as its
XML-escaped text; an element drives a fresh `IndentStringBuilder`
through the doctype line, the open/close (or self-closing) tags, and —
when it has children and is not an HTML no-indent element — one `with`
scope in which each child's rendered string is re-emitted line by line
via `print_lines`, then returns the builder's accumulated string. -/
def nodeToString : XmlNode → String
  | XmlNode.text s => xmlEscape s
  | XmlNode.elem name attrs children doctype html =>
    let childStrs := nodesToStrings children
    let sb0 := IndentStringBuilder.mkEmpty
    let sb1 := match doctype with
      | some d => sb0.functorCall ("<!doctype " ++ d ++ ">")
      | none => sb0
    let sb2 :=
      if children.isEmpty then
        if html ∧ ¬ HTML_VOID_TAGS.contains name then
          if attrs.isEmpty then
            sb1.functorCall ("<" ++ xmlEscape name ++ "></" ++ xmlEscape name ++ ">")
          else
            sb1.functorCall ("<" ++ xmlEscape name ++ " " ++ XmlElement.getAttrsStr attrs ++
              "></" ++ xmlEscape name ++ ">")
        else if attrs.isEmpty then
          sb1.functorCall ("<" ++ xmlEscape name ++ "/>")
        else
          sb1.functorCall ("<" ++ xmlEscape name ++ " " ++ XmlElement.getAttrsStr attrs ++ "/>")
      else
        if html ∧ HTML_NOINDENT_TAGS.contains name then
          if attrs.isEmpty then
            sb1.functorCall ("<" ++ xmlEscape name ++ ">" ++ String.join childStrs ++
              "</" ++ xmlEscape name ++ ">")
          else
            sb1.functorCall ("<" ++ xmlEscape name ++ " " ++ XmlElement.getAttrsStr attrs ++
              ">" ++ String.join childStrs ++ "</" ++ xmlEscape name ++ ">")
        else
          let sbOpen :=
            if attrs.isEmpty then
              sb1.functorCall ("<" ++ xmlEscape name ++ ">")
            else
              sb1.functorCall ("<" ++ xmlEscape name ++ " " ++
                XmlElement.getAttrsStr attrs ++ ">")
          let sbKids :=
            (childStrs.foldl (fun sb cs => sb.print_lines cs) sbOpen.enter).exitScope
          sbKids.functorCall ("</" ++ xmlEscape name ++ ">")
    sb2.get_string

/-- `str(child)` for each child in order. -/
def nodesToStrings : List XmlNode → List String
  | [] => []
  | n :: rest => nodeToString n :: nodesToStrings rest

end

/-- `str(element)` on an `XmlElement` record. -/
def XmlElement.render (el : XmlElement) : String :=
  nodeToString el.toNode

/-- One call in a sequence of `indent(k)` / `unindent(k)` calls. -/
inductive IndentOp where
  | ind (k : Int)
  | unind (k : Int)
  deriving DecidableEq, Repr

/-- The level argument of a call. -/
def IndentOp.level : IndentOp → Int
  | IndentOp.ind k => k
  | IndentOp.unind k => k

/-- The signed contribution of a call to `Σindent − Σunindent`. -/
def IndentOp.delta : IndentOp → Int
  | IndentOp.ind k => k
  | IndentOp.unind k => -k

/-- `Σindent − Σunindent` over a call sequence. -/
def sumDelta (ops : List IndentOp) : Int :=
  (ops.map IndentOp.delta).sum

/-- Perform one `indent`/`unindent` call on the engine. -/
def applyOp (sb : IndentStringBuilder) : IndentOp → IndentStringBuilder
  | IndentOp.ind k => sb.indent k
  | IndentOp.unind k => sb.unindent k

/-- Perform a sequence of `indent`/`unindent` calls in order. -/
def runOps (sb : IndentStringBuilder) (ops : List IndentOp) : IndentStringBuilder :=
  ops.foldl applyOp sb

theorem runOps_append (sb : IndentStringBuilder) (l₁ l₂ : List IndentOp) :
    runOps sb (l₁ ++ l₂) = runOps (runOps sb l₁) l₂ :=
  List.foldl_append ..

theorem applyOp_il_nonneg (sb : IndentStringBuilder) (op : IndentOp)
    (hs : 0 ≤ sb.il) (hop : 0 ≤ op.level) : 0 ≤ (applyOp sb op).il := by
  cases op with
  | ind k =>
    simp only [applyOp, IndentStringBuilder.indent]
    simp only [IndentOp.level] at hop
    omega
  | unind k =>
    simp only [applyOp, IndentStringBuilder.unindent]
    split <;> omega

theorem runOps_il_nonneg (sb : IndentStringBuilder) (ops : List IndentOp)
    (hs : 0 ≤ sb.il) (hops : ∀ op ∈ ops, 0 ≤ op.level) : 0 ≤ (runOps sb ops).il := by
  induction ops generalizing sb with
  | nil => exact hs
  | cons op rest ih =>
    have h1 : 0 ≤ (applyOp sb op).il :=
      applyOp_il_nonneg sb op hs (hops op (List.mem_cons_self op rest))
    exact ih (applyOp sb op) h1 (fun o ho => hops o (List.mem_cons_of_mem op ho))

theorem runOps_il_exact (sb : IndentStringBuilder) (ops : List IndentOp)
    (h : ∀ l₁ l₂, ops = l₁ ++ l₂ → 0 ≤ sb.il + sumDelta l₁) :
    (runOps sb ops).il = sb.il + sumDelta ops := by
  induction ops generalizing sb with
  | nil => simp [runOps, sumDelta]
  | cons op rest ih =>
    have hstep : (applyOp sb op).il = sb.il + op.delta := by
      cases op with
      | ind k => simp [applyOp, IndentStringBuilder.indent, IndentOp.delta]
      | unind k =>
        have h1 := h [IndentOp.unind k] rest rfl
        simp only [sumDelta, List.map_cons, List.map_nil, List.sum_cons, List.sum_nil,
          IndentOp.delta] at h1
        simp only [applyOp, IndentStringBuilder.unindent, IndentOp.delta]
        split <;> omega
    have hrest : ∀ l₁ l₂, rest = l₁ ++ l₂ → 0 ≤ (applyOp sb op).il + sumDelta l₁ := by
      intro l₁ l₂ hsplit
      have h2 := h (op :: l₁) l₂ (by simp [hsplit])
      simp only [sumDelta, List.map_cons, List.sum_cons] at h2 ⊢
      omega
    have h3 := ih (applyOp sb op) hrest
    simp only [runOps, List.foldl_cons] at h3 ⊢
    simp only [sumDelta, List.map_cons, List.sum_cons] at h3 hstep ⊢
    omega

end Indenti

namespace Indenti

/-- C10: `indent` applies no clamp: `indent(L)` always sets the depth to
exactly `d + L`, even for negative `L`, so an indent with a negative
level can leave the depth below zero — while `unindent` always leaves a
depth `≥ 0` and hence can never produce such a state. -/
theorem c10_indent_no_clamp :
    (∀ (sb : IndentStringBuilder) (L : Int), (sb.indent L).il = sb.il + L)
    ∧ (∃ (sb : IndentStringBuilder) (L : Int), (sb.indent L).il < 0)
    ∧ (∀ (sb : IndentStringBuilder) (L : Int), 0 ≤ (sb.unindent L).il) := by
  refine ⟨fun sb L => rfl, ⟨IndentStringBuilder.mkEmpty, -1, by decide⟩, fun sb L => ?_⟩
  simp only [IndentStringBuilder.unindent]
  split <;> omega

/-- C2 counterexample: starting from depth 0, the sequence
`unindent(5); indent(3)` leaves the depth at 3, whereas
`max(0, initial + Σindent − Σunindent) = max(0, −2) = 0`; the claimed
formula fails as soon as a clamped unindent is followed by an indent. -/
theorem c2_depth_formula_cex :
    (runOps IndentStringBuilder.mkEmpty [IndentOp.unind 5, IndentOp.ind 3]).il = 3
    ∧ max 0 (IndentStringBuilder.mkEmpty.il +
        sumDelta [IndentOp.unind 5, IndentOp.ind 3]) = 0
    ∧ (3 : Int) ≠ 0 := by
  refine ⟨by decide, by decide, by decide⟩

/-- C2 amended: for every sequence of `indent(k)`/`unindent(k)` calls
with non-negative levels, from an initial depth ≥ 0 the depth stays ≥ 0
at every point; and the depth equals `initial + Σindent − Σunindent` at
every point provided no prefix of the sequence drives that running total
negative (each `unindent` clamps at 0 individually, so after a clamped
prefix the depth can exceed `max(0, initial + Σindent − Σunindent)`). -/
theorem c2_depth_clamp_amended (sb : IndentStringBuilder) (ops : List IndentOp)
    (hs : 0 ≤ sb.il) (hops : ∀ op ∈ ops, 0 ≤ op.level) :
    (∀ l₁ l₂, ops = l₁ ++ l₂ → 0 ≤ (runOps sb l₁).il)
    ∧ ((∀ l₁ l₂, ops = l₁ ++ l₂ → 0 ≤ sb.il + sumDelta l₁) →
        ∀ l₁ l₂, ops = l₁ ++ l₂ →
          (runOps sb l₁).il = sb.il + sumDelta l₁) := by
  constructor
  · intro l₁ l₂ hsplit
    refine runOps_il_nonneg sb l₁ hs (fun op ho => hops op ?_)
    rw [hsplit]
    exact List.mem_append_left l₂ ho
  · intro hpre l₁ l₂ hsplit
    refine runOps_il_exact sb l₁ (fun m₁ m₂ hm => ?_)
    exact hpre m₁ (m₂ ++ l₂) (by simp [hsplit, hm])

/-- C2 witness: the amended statement at depth 0 with the call sequence
`indent(2); unindent(1); unindent(1)`, whose running totals never go
negative. -/
theorem c2_depth_clamp_amended_witness :
    (∀ l₁ l₂, [IndentOp.ind 2, IndentOp.unind 1, IndentOp.unind 1] = l₁ ++ l₂ →
        0 ≤ (runOps IndentStringBuilder.mkEmpty l₁).il)
    ∧ ((∀ l₁ l₂, [IndentOp.ind 2, IndentOp.unind 1, IndentOp.unind 1] = l₁ ++ l₂ →
          0 ≤ IndentStringBuilder.mkEmpty.il + sumDelta l₁) →
        ∀ l₁ l₂, [IndentOp.ind 2, IndentOp.unind 1, IndentOp.unind 1] = l₁ ++ l₂ →
          (runOps IndentStringBuilder.mkEmpty l₁).il =
            IndentStringBuilder.mkEmpty.il + sumDelta l₁) :=
  c2_depth_clamp_amended IndentStringBuilder.mkEmpty
    [IndentOp.ind 2, IndentOp.unind 1, IndentOp.unind 1]
    (by decide) (by decide)

/-- C1: on an HTML-mode element whose tag is in the void set, `append`
with any child, and `apply` with a single child node (or a single string
argument, which would become a text child), raise the void-tag
`ValueError` — the spec's `StructuralError` — and the element carried by
the raised error is exactly the element before the call: its children
and attributes are unchanged. -/
theorem c1_void_tag_guard (el : XmlElement) (c : XmlNode) (s : String)
    (h1 : el.html = true) (h2 : el.name ∈ HTML_VOID_TAGS) :
    el.append c = Except.error (PyError.valueError voidTagMsg, el)
    ∧ el.apply [] [ApplyArg.node c] = Except.error (PyError.valueError voidTagMsg, el)
    ∧ el.apply [] [ApplyArg.text s] = Except.error (PyError.valueError voidTagMsg, el) := by
  obtain ⟨name, attrs, children, doctype, html⟩ := el
  subst h1
  simp only at h2
  refine ⟨?_, ?_, ?_⟩ <;>
    simp [XmlElement.apply, XmlElement.append, updateAttrs, applyArgs, applyOne, h2]

/-- C1 witness: an `img` element with one attribute and no children,
given a text child via `append` and via `apply`. -/
theorem c1_void_tag_guard_witness :
    XmlElement.append ⟨"img", [("src", some "x")], [], none, true⟩ (XmlNode.text "y") =
      Except.error (PyError.valueError voidTagMsg,
        ⟨"img", [("src", some "x")], [], none, true⟩)
    ∧ XmlElement.apply ⟨"img", [("src", some "x")], [], none, true⟩ []
        [ApplyArg.node (XmlNode.text "y")] =
      Except.error (PyError.valueError voidTagMsg,
        ⟨"img", [("src", some "x")], [], none, true⟩)
    ∧ XmlElement.apply ⟨"img", [("src", some "x")], [], none, true⟩ []
        [ApplyArg.text "y"] =
      Except.error (PyError.valueError voidTagMsg,
        ⟨"img", [("src", some "x")], [], none, true⟩) :=
  c1_void_tag_guard ⟨"img", [("src", some "x")], [], none, true⟩
    (XmlNode.text "y") "y" rfl (by decide)

/-- C9 counterexample: the void-tag error message is one fixed string —
the comma-joined void-tag set — so two elements with different tags
(`img` and `br`) raise errors carrying the identical message; the
message therefore cannot identify the offending element by its own tag
name. -/
theorem c9_error_message_cex :
    XmlElement.append ⟨"img", [], [], none, true⟩ (XmlNode.text "x") =
      Except.error (PyError.valueError voidTagMsg, ⟨"img", [], [], none, true⟩)
    ∧ XmlElement.append ⟨"br", [], [], none, true⟩ (XmlNode.text "x") =
      Except.error (PyError.valueError voidTagMsg, ⟨"br", [], [], none, true⟩)
    ∧ ("img" : String) ≠ "br" :=
  ⟨rfl, rfl, by decide⟩

set_option maxRecDepth 8000 in
/-- C9 amended: the error raised at the offending `append` call is a
`ValueError` whose message lists the entire void-tag set — so it
contains the offending element's tag among the thirteen void tags — but
the message is the same constant string for every void element and does
not single out the offending element's own tag. -/
theorem c9_error_message_amended (el : XmlElement) (c : XmlNode)
    (h1 : el.html = true) (h2 : el.name ∈ HTML_VOID_TAGS) :
    el.append c = Except.error (PyError.valueError voidTagMsg, el)
    ∧ (∀ t ∈ HTML_VOID_TAGS, t.data <:+: voidTagMsg.data) := by
  obtain ⟨name, attrs, children, doctype, html⟩ := el
  subst h1
  simp only at h2
  exact ⟨by simp [XmlElement.append, h2], by decide⟩

/-- C9 witness: the amended statement at a childless `img` element. -/
theorem c9_error_message_amended_witness :
    XmlElement.append ⟨"img", [], [], none, true⟩ (XmlNode.text "x") =
      Except.error (PyError.valueError voidTagMsg, ⟨"img", [], [], none, true⟩)
    ∧ (∀ t ∈ HTML_VOID_TAGS, t.data <:+: voidTagMsg.data) :=
  c9_error_message_amended ⟨"img", [], [], none, true⟩ (XmlNode.text "x") rfl (by decide)

/-- C4 counterexample: with the engine at depth 1 and at line start,
`set_enabled(False)` followed by `write("x")` still emits the indent
prefix before the text — the raw output is `["    ", "x"]`, not the
`["x"]` the claim predicts: `write` never consults `_enabled`. -/
theorem c4_enabled_cex :
    ((IndentStringBuilder.set_enabled ⟨[], 1, "    ", true, true⟩ false).write "x").strings =
      ["    ", "x"]
    ∧ (["    ", "x"] : List String) ≠ ["x"] :=
  ⟨rfl, by decide⟩

/-- C4 amended: `set_enabled` records the flag, but `write` ignores it:
the emitted fragments are identical whatever the flag's value, and at
line start the prefix `indentUnit * depth` is always emitted before the
text, enabled or not.  (The enabled-true half of the claim holds; the
flag-false half does not, because the prefix-skipping guard is absent
from `write`.) -/
theorem c4_enabled_amended (sb : IndentStringBuilder) (b : Bool) (out : String) :
    (sb.set_enabled b).enabled = b
    ∧ ((sb.set_enabled b).write out).strings = (sb.write out).strings
    ∧ (sb.isnewline = true →
        (sb.write out).strings = sb.strings ++ [strMul sb.indent_str sb.il, out]) := by
  refine ⟨rfl, ?_, fun h => ?_⟩
  · simp only [IndentStringBuilder.set_enabled, IndentStringBuilder.write,
      IndentStringBuilder.write_raw]
    split <;> rfl
  · simp [IndentStringBuilder.write, IndentStringBuilder.write_raw, h]

/-- C4 witness: the amended statement for a fresh engine indented to
depth 1 and sitting at line start, with the flag set to false. -/
theorem c4_enabled_amended_witness :
    ((⟨[], 1, "    ", true, true⟩ : IndentStringBuilder).set_enabled false).enabled = false
    ∧ (((⟨[], 1, "    ", true, true⟩ : IndentStringBuilder).set_enabled false).write "x").strings =
        ((⟨[], 1, "    ", true, true⟩ : IndentStringBuilder).write "x").strings
    ∧ ((⟨[], 1, "    ", true, true⟩ : IndentStringBuilder).write "x").strings =
        [] ++ [strMul "    " 1, "x"] :=
  match c4_enabled_amended ⟨[], 1, "    ", true, true⟩ false "x" with
  | ⟨h1, h2, h3⟩ => ⟨h1, h2, h3 rfl⟩

/-- C7: the claim is right and the code is wrong: `StringBuilder.extend`
runs `map(self.append, strings)`, which in Python 3 builds a lazy,
never-consumed iterator, so `extend` appends nothing — contradicting its
own docstring ("Adds the given list/tuple of strings").  Evaluated at
the failing input `extend(["a"])` on a fresh builder: the concatenation
stays empty rather than becoming `"a"`. -/
theorem c7_extend_noop :
    (StringBuilder.mkEmpty.extend ["a"]).get_string = StringBuilder.mkEmpty.get_string
    ∧ StringBuilder.mkEmpty.get_string = ""
    ∧ ("" : String) ≠ "a" :=
  ⟨rfl, rfl, by decide⟩

/-- C8: entering a `with` scope calls `indent(1)`, taking the depth from
`d` to `d + 1`; `__exit__` calls `unindent(1)` on both the normal and
the raising path, so for any body that leaves the depth as it found it,
the depth after the scope equals the pre-scope depth `d ≥ 0` on either
path, and stays non-negative — the writer is reusable afterwards. -/
theorem c8_scoped_indent (sb : IndentStringBuilder)
    (body : IndentStringBuilder → Except (String × IndentStringBuilder) IndentStringBuilder)
    (hs : 0 ≤ sb.il) (hbody : ∀ t, (stateAfter (body t)).il = t.il) :
    sb.enter.il = sb.il + 1
    ∧ (stateAfter (withIndent sb body)).il = sb.il
    ∧ 0 ≤ (stateAfter (withIndent sb body)).il := by
  have hb := hbody sb.enter
  have henter : sb.enter.il = sb.il + 1 := rfl
  cases hres : body sb.enter with
  | ok t =>
    rw [hres] at hb
    simp only [stateAfter] at hb
    simp only [withIndent, hres, stateAfter, IndentStringBuilder.exitScope,
      IndentStringBuilder.unindent]
    rw [henter] at hb
    refine ⟨rfl, ?_, ?_⟩ <;> split <;> omega
  | error e =>
    obtain ⟨msg, t⟩ := e
    have hb' := hbody sb.enter
    rw [hres] at hb'
    simp only [stateAfter] at hb'
    simp only [withIndent, hres, stateAfter, IndentStringBuilder.exitScope,
      IndentStringBuilder.unindent]
    rw [henter] at hb'
    refine ⟨rfl, ?_, ?_⟩ <;> split <;> omega

/-- C8 witness: a fresh engine with a body that raises immediately —
the depth still returns to its pre-scope value 0 on the error path. -/
theorem c8_scoped_indent_witness :
    IndentStringBuilder.mkEmpty.enter.il = IndentStringBuilder.mkEmpty.il + 1
    ∧ (stateAfter (withIndent IndentStringBuilder.mkEmpty
        (fun t => Except.error ("boom", t)))).il = IndentStringBuilder.mkEmpty.il
    ∧ 0 ≤ (stateAfter (withIndent IndentStringBuilder.mkEmpty
        (fun t => Except.error ("boom", t)))).il :=
  c8_scoped_indent IndentStringBuilder.mkEmpty (fun t => Except.error ("boom", t))
    (by decide) (fun t => rfl)

theorem any_of_lookupAttr (attrs : List (String × Option String)) (k : String)
    (o : Option String) (h : lookupAttr attrs k = some o) :
    attrs.any (fun p => p.1 = k) = true := by
  induction attrs with
  | nil => simp [lookupAttr] at h
  | cons q rest ih =>
    by_cases hq : q.1 = k
    · simp [hq]
    · have hfind : lookupAttr (q :: rest) k = lookupAttr rest k := by
        simp [lookupAttr, List.find?_cons_of_neg, hq]
      rw [hfind] at h
      simp [List.any_cons, ih h]

/-- C3 counterexample: an HTML element that already has `class="a"`,
given `class="b"` as a *named* argument of `apply`: the named-argument
path runs the plain `attrs.update`, so the value is overwritten to `"b"`
rather than merged to `"a b"` — the class-merge rule does not apply to
named arguments. -/
theorem c3_class_merge_cex :
    XmlElement.apply ⟨"div", [("class", some "a")], [], none, true⟩
        [("class", some "b")] [] =
      Except.ok ⟨"div", [("class", some "b")], [], none, true⟩
    ∧ (some "b" : Option String) ≠ some "a b" :=
  ⟨rfl, by decide⟩

/-- C3 amended: in HTML mode, when `class` is already present the
class-merge (append with a single separating space, keeping one `class`
attribute in place) applies to a *positional mapping* argument of
`apply`; a *named* argument instead goes through the plain
`attrs.update` and overwrites the existing value. -/
theorem c3_class_merge_amended (el : XmlElement) (old v : String)
    (h1 : el.html = true) (h2 : lookupAttr el.attrs "class" = some (some old)) :
    el.apply [] [ApplyArg.attrsMap [("class", some v)]] =
      Except.ok { el with attrs := setAttr el.attrs "class" (some (old ++ " " ++ v)) }
    ∧ el.apply [("class", some v)] [] =
      Except.ok { el with attrs := setAttr el.attrs "class" (some v) } := by
  have hany : el.attrs.any (fun p => p.1 = "class") = true :=
    any_of_lookupAttr el.attrs "class" (some old) h2
  constructor
  · obtain ⟨name, attrs, children, doctype, html⟩ := el
    subst h1
    simp only at hany h2
    simp [XmlElement.apply, updateAttrs, applyArgs, applyOne, mergeMapAttrs, hany, h2]
  · rfl

/-- C3 witness: the amended statement at `div` with `class="a"`, merging
`class="b"` both ways: the mapping argument yields `class="a b"`, the
named argument yields `class="b"`. -/
theorem c3_class_merge_amended_witness :
    XmlElement.apply ⟨"div", [("class", some "a")], [], none, true⟩ []
        [ApplyArg.attrsMap [("class", some "b")]] =
      Except.ok ⟨"div", [("class", some "a b")], [], none, true⟩
    ∧ XmlElement.apply ⟨"div", [("class", some "a")], [], none, true⟩
        [("class", some "b")] [] =
      Except.ok ⟨"div", [("class", some "b")], [], none, true⟩ := by
  have h := c3_class_merge_amended ⟨"div", [("class", some "a")], [], none, true⟩
    "a" "b" rfl rfl
  exact h

/-- C5 counterexample: the childless, attributeless element `a` in
non-HTML mode renders as `"<a/>\n"` — the render routine goes through
`println`, which appends a newline — not as exactly `"<a/>"`. -/
theorem c5_empty_render_cex :
    XmlElement.render ⟨"a", [], [], none, false⟩ = "<a/>\n"
    ∧ ("<a/>\n" : String) ≠ "<a/>" :=
  ⟨rfl, by decide⟩

/-- C5 amended: for every tag, rendering an element with no children,
no attributes and no doctype yields `"<tag/>"` (tag XML-escaped) in
non-HTML mode and `"<tag></tag>"` in HTML mode for a non-void tag — in
both cases followed by a single trailing newline. -/
theorem c5_empty_render_amended (tag : String) :
    XmlElement.render ⟨tag, [], [], none, false⟩ = "<" ++ xmlEscape tag ++ "/>" ++ "\n"
    ∧ (tag ∉ HTML_VOID_TAGS →
        XmlElement.render ⟨tag, [], [], none, true⟩ =
          "<" ++ xmlEscape tag ++ "></" ++ xmlEscape tag ++ ">" ++ "\n") := by
  constructor
  · simp [XmlElement.render, XmlElement.toNode, nodeToString, IndentStringBuilder.mkEmpty,
      IndentStringBuilder.functorCall, IndentStringBuilder.println, IndentStringBuilder.write,
      IndentStringBuilder.newline, IndentStringBuilder.write_raw,
      IndentStringBuilder.get_string, String.join, String.append_assoc]
  · intro h
    simp [XmlElement.render, XmlElement.toNode, nodeToString, IndentStringBuilder.mkEmpty,
      IndentStringBuilder.functorCall, IndentStringBuilder.println, IndentStringBuilder.write,
      IndentStringBuilder.newline, IndentStringBuilder.write_raw,
      IndentStringBuilder.get_string, String.join, String.append_assoc, h]

/-- C5 witness: the amended statement at the non-void tag `p`. -/
theorem c5_empty_render_amended_witness :
    XmlElement.render ⟨"p", [], [], none, false⟩ = "<" ++ xmlEscape "p" ++ "/>" ++ "\n"
    ∧ XmlElement.render ⟨"p", [], [], none, true⟩ =
        "<" ++ xmlEscape "p" ++ "></" ++ xmlEscape "p" ++ ">" ++ "\n" :=
  match c5_empty_render_amended "p" with
  | ⟨h1, h2⟩ => ⟨h1, h2 (by decide)⟩

/-- One attribute's declaration string, as built in the loop of
`_get_attrs_str`. -/
def attrDecl (p : String × Option String) : String :=
  match p.2 with
  | some v => xmlEscape p.1 ++ "=" ++ pyQuoteattr v
  | none => xmlEscape p.1

theorem getAttrsStr_foldl (attrs : List (String × Option String)) (acc : List String) :
    attrs.foldl
      (fun acc p =>
        match p.2 with
        | some v => acc ++ [xmlEscape p.1 ++ "=" ++ pyQuoteattr v]
        | none => acc ++ [xmlEscape p.1]) acc = acc ++ attrs.map attrDecl := by
  induction attrs generalizing acc with
  | nil => simp
  | cons p rest ih =>
    cases hp : p.2 <;> simp [attrDecl, hp, ih]

theorem getAttrsStr_eq_map (attrs : List (String × Option String)) :
    XmlElement.getAttrsStr attrs = String.intercalate " " (attrs.map attrDecl) := by
  simp [XmlElement.getAttrsStr, getAttrsStr_foldl]

/-- C6 counterexample: the attribute `a` with value `x"y` renders as
`a='x"y'` — `quoteattr` switches to single-quote wrapping when the
escaped value contains a double quote but no single quote — so the
rendered attribute is not of the claimed form `a="…"` for any inner
string. -/
theorem c6_attr_render_cex :
    XmlElement.getAttrsStr [("a", some "x\"y")] =
      "a=" ++ squote.toString ++ "x\"y" ++ squote.toString
    ∧ ¬ ∃ r : String,
        XmlElement.getAttrsStr [("a", some "x\"y")] = "a=\"" ++ r ++ "\"" := by
  refine ⟨rfl, ?_⟩
  rintro ⟨r, hr⟩
  have hval : XmlElement.getAttrsStr [("a", some "x\"y")] =
      String.mk ['a', '=', squote, 'x', dquote, 'y', squote] := rfl
  rw [hval] at hr
  have h2 := congrArg String.data hr
  have hd : ("a=\"" ++ r ++ "\"").data = 'a' :: '=' :: dquote :: (r.data ++ [dquote]) := rfl
  rw [hd] at h2
  simp only [String.mk] at h2
  obtain ⟨-, h3⟩ := List.cons.inj h2
  obtain ⟨-, h4⟩ := List.cons.inj h3
  obtain ⟨h5, -⟩ := List.cons.inj h4
  exact absurd h5 (by decide)

/-- C6 amended: attributes render in insertion order joined by single
spaces, a null value as the bare escaped key, and a non-null value as
`key=` followed by the quoted value, which is wrapped in double quotes
whenever the escaped value contains no double-quote character (when it
does, `quoteattr` falls back to single-quote wrapping, or to `&quot;`
escaping when both quote kinds occur). -/
theorem c6_attr_render_amended (attrs : List (String × Option String)) (k s : String)
    (h : (quoteattrEscape s).data.contains dquote = false) :
    XmlElement.getAttrsStr attrs = String.intercalate " " (attrs.map attrDecl)
    ∧ attrDecl (k, some s) = xmlEscape k ++ "=" ++ ("\"" ++ quoteattrEscape s ++ "\"")
    ∧ attrDecl (k, none) = xmlEscape k := by
  refine ⟨getAttrsStr_eq_map attrs, ?_, rfl⟩
  have h' : dquote ∉ (quoteattrEscape s).data := by simpa using h
  simp [attrDecl, pyQuoteattr, h']

/-- C6 witness: the amended statement for `k="v" b`. -/
theorem c6_attr_render_amended_witness :
    XmlElement.getAttrsStr [("k", some "v"), ("b", none)] =
      String.intercalate " " ([("k", some "v"), ("b", none)].map attrDecl)
    ∧ attrDecl ("k", some "v") = xmlEscape "k" ++ "=" ++ ("\"" ++ quoteattrEscape "v" ++ "\"")
    ∧ attrDecl ("k", none) = xmlEscape "k" :=
  c6_attr_render_amended [("k", some "v"), ("b", none)] "k" "v" (by decide)

end Indenti
